import Mathlib

/-
Verification development for duckpy (src/duckpy/duck.py): a shallow
embedding of the alias/key resolver, the line-to-command translator
(DuckyCommand._to_python), command execution (DuckyCommand.execute,
_cmd_repeat) and script loading (DuckyScript.load), together with
theorems settling the specification claims.

Modelling conventions:
  * Python str is Lean String; the string operations the source uses
    (strip, split('-'), split(' ', maxsplit=1), lower, int()) are
    implemented here over List Char so they can be reasoned about.
  * Python ints are Lean Int.
  * Raised exceptions are an Err value in Except.
  * The mutable objects (DuckyCommand instances with their _skip_delay
    flag, the script's _default_delay cell, the command list shared
    through the _script interface dict) live in an explicit PyState;
    command objects are addressed by their index in an append-only heap,
    which models Python object references faithfully, including the fact
    that after a reload self.commands is a fresh list while
    _script['commands'] still refers to the original list.
  * time.sleep / pyautogui.typewrite / pyautogui.hotkey are external
    collaborators; their invocations are recorded as trace Events.
    time.sleep raises ValueError on a negative duration, which is kept.
  * Logging is not modelled, except where it changes control flow: the
    debug message in the key-press branch of _to_python formats
    ','.join(keys), which raises TypeError when any key is None.
-/

namespace Duckpy

/-- Statement verbs recognized by the interpreter (COMMANDS in duck.py). -/
def COMMANDS : List String := ["REM", "DEFAULT_DELAY", "DELAY", "STRING", "REPEAT"]

/-- Alias table (ALIAS in duck.py): alternate spellings accepted for
commands and keys; resolution is single-hop. -/
def ALIAS : List (String × String) :=
  [("DEFAULTDELAY", "DEFAULT_DELAY"),
   ("WINDOWS", "GUI"),
   ("MENU", "APP"),
   ("CONTROL", "CTRL"),
   ("DOWNARROW", "DOWN"),
   ("UPARROW", "UP"),
   ("LEFTARROW", "LEFT"),
   ("RIGHTARROW", "RIGHT"),
   ("BREAK", "PAUSE"),
   ("ESC", "ESCAPE")]

/-- Special key-name conversions (TRANSLATE_KEYS in duck.py), on a
non-darwin platform (sys.platform is not darwin, so GUI maps to
winleft). -/
def TRANSLATE_KEYS : List (String × String) :=
  [("GUI", "winleft"), ("APP", "apps")]

/-- The key-name set of the external collaborator, pyautogui
(pyautogui.KEYBOARD_KEYS).  A handful of punctuation entries of the real
list (quote, double quote, backslash, backquote, braces, bar) are elided;
no token in this development resolves to them. -/
def KEYBOARD_KEYS : List String :=
  ["\t", "\n", "\r", " ", "!", "#", "$", "%", "&", "(",
   ")", "*", "+", ",", "-", ".", "/",
   "0", "1", "2", "3", "4", "5", "6", "7", "8", "9",
   ":", ";", "<", "=", ">", "?", "@", "[", "]", "^", "_",
   "a", "b", "c", "d", "e", "f", "g", "h", "i", "j", "k", "l", "m",
   "n", "o", "p", "q", "r", "s", "t", "u", "v", "w", "x", "y", "z",
   "~",
   "accept", "add", "alt", "altleft", "altright", "apps", "backspace",
   "browserback", "browserfavorites", "browserforward", "browserhome",
   "browserrefresh", "browsersearch", "browserstop", "capslock", "clear",
   "convert", "ctrl", "ctrlleft", "ctrlright", "decimal", "del", "delete",
   "divide", "down", "end", "enter", "esc", "escape", "execute",
   "f1", "f10", "f11", "f12", "f13", "f14", "f15", "f16", "f17", "f18",
   "f19", "f2", "f20", "f21", "f22", "f23", "f24", "f3", "f4", "f5",
   "f6", "f7", "f8", "f9",
   "final", "fn", "hanguel", "hangul", "hanja", "help", "home", "insert",
   "junja", "kana", "kanji", "launchapp1", "launchapp2", "launchmail",
   "launchmediaselect", "left", "modechange", "multiply", "nexttrack",
   "nonconvert", "num0", "num1", "num2", "num3", "num4", "num5", "num6",
   "num7", "num8", "num9", "numlock", "pagedown", "pageup", "pause",
   "pgdn", "pgup", "playpause", "prevtrack", "print", "printscreen",
   "prntscrn", "prtsc", "prtscr", "return", "right", "scrolllock",
   "select", "separator", "shift", "shiftleft", "shiftright", "sleep",
   "space", "stop", "subtract", "tab", "up", "volumedown", "volumemute",
   "volumeup", "win", "winleft", "winright", "yen", "command", "option",
   "optionleft", "optionright"]

/-- Characters Python's str.strip removes. -/
def isPySpace (c : Char) : Bool :=
  c = ' ' || c = '\t' || c = '\n' || c = '\r' || c = '\x0b' || c = '\x0c'

/-- str.strip over the character list. -/
def pyStripList (l : List Char) : List Char :=
  ((l.dropWhile isPySpace).reverse.dropWhile isPySpace).reverse

/-- Python str.strip(). -/
def pyStrip (s : String) : String := String.mk (pyStripList s.toList)

/-- Python str.split(sep) for a one-character separator: always returns a
nonempty list, empty input gives one empty part. -/
def splitCh (c : Char) : List Char → List (List Char)
  | [] => [[]]
  | x :: xs =>
    if x = c then [] :: splitCh c xs
    else
      match splitCh c xs with
      | [] => [[x]]
      | h :: t => (x :: h) :: t

/-- Python str.split(sep, maxsplit=1) for a one-character separator:
the text before the first separator, and (when a separator occurs) the
untouched remainder. -/
def splitOnceCh (c : Char) : List Char → List Char × Option (List Char)
  | [] => ([], none)
  | x :: xs =>
    if x = c then ([], some xs)
    else
      let r := splitOnceCh c xs
      (x :: r.1, r.2)

/-- dline.split(' ', maxsplit=1) as used by _to_python: the verb token
and the optional remainder ("dline[1]"). -/
def pySplitOnce (s : String) : String × Option String :=
  let r := splitOnceCh ' ' s.toList
  (String.mk r.1, r.2.map String.mk)

/-- Python str.lower() (ASCII, which covers every token the source
handles). -/
def lowerStr (s : String) : String := String.mk (s.toList.map Char.toLower)

/-- Helper for int(): a nonempty all-digit character list to its value. -/
def natOfDigits? (l : List Char) : Option Nat :=
  if l = [] then none
  else if l.all Char.isDigit then
    some (l.foldl (fun a c => a * 10 + (c.toNat - '0'.toNat)) 0)
  else none

/-- Python int(str): surrounding whitespace allowed, optional sign, then
decimal digits; anything else raises ValueError (None here). -/
def pyInt (s : String) : Option Int :=
  match pyStripList s.toList with
  | '+' :: rest => (natOfDigits? rest).map Int.ofNat
  | '-' :: rest => (natOfDigits? rest).map fun n => -(Int.ofNat n)
  | rest => (natOfDigits? rest).map Int.ofNat

/-- is_valid_alias: the token is a key of the ALIAS table
(case sensitive). -/
def is_valid_alias (dcmd : String) : Bool := (ALIAS.lookup dcmd).isSome

/-- get_alias_target: the command an alias targets.  The source raises
ValueError when the argument is not an alias; both call sites in the
source guard with is_valid_alias first, so the function is modelled as
total with an identity fallback on the unreachable branch. -/
def get_alias_target (dalias : String) : String :=
  (ALIAS.lookup dalias).getD dalias

/-- Translation of a single dash-free key token: alias resolution, then
TRANSLATE_KEYS or lowercasing, then membership in
pyautogui.KEYBOARD_KEYS, with None (none) as the unresolved sentinel.
This is the dash-free path of translate_key. -/
def translate_single (dkey : String) : Option String :=
  let dkey := if is_valid_alias dkey then get_alias_target dkey else dkey
  let pykey := lowerStr ((TRANSLATE_KEYS.lookup dkey).getD dkey)
  if KEYBOARD_KEYS.contains pykey then some pykey else none

/-- translate_key.  When the token contains a dash the source computes
tuple(translate_key(k)[0] for k in dkey.split('-')); every part of a
split on the dash is dash-free, so the recursive call on a part returns
the one-element tuple (translate_single part,) and taking element [0] of
each is the same as mapping translate_single over the parts, which is
how the recursion is rendered here. -/
def translate_key (dkey : String) : List (Option String) :=
  if '-' ∈ dkey.toList then
    (splitCh '-' dkey.toList).map fun part => translate_single (String.mk part)
  else [translate_single dkey]

/-- is_valid_cmd: a token is valid when it translates to a key, or
otherwise is one of the recognized statement verbs. -/
def is_valid_cmd (dcmd : String) : Bool :=
  if (translate_key dcmd).contains none then COMMANDS.contains dcmd
  else true

/-- Exceptions the modelled code can raise. -/
inductive Err where
  /-- ValueError: invalid command token, failed int() parse, or a
  negative argument to time.sleep. -/
  | valueError
  /-- IndexError from accessing the missing dline[1] argument. -/
  | indexError
  /-- TypeError: joining key names containing None in the debug log of
  the key-press branch (or a missing script interface). -/
  | typeError
  /-- AttributeError: calling .execute() on the bare _cmd_rem function
  that a first-line REPEAT stores as its target. -/
  | attributeError
  /-- Artifact of the fuel-bounded execution model; never arises on the
  runs the theorems below consider. -/
  | outOfFuel
deriving DecidableEq

/-- Target of a REPEAT command: either a reference to a DuckyCommand
object (a heap index), or the bare _cmd_rem function that _to_python
stores when commands[lineno - 1] raises IndexError. -/
inductive RTarget where
  | bare
  | ref (idx : Nat)
deriving DecidableEq

/-- The python_func built by _to_python: the verb-specific action with
its arguments pre-bound by _set_args. -/
inductive PyFunc where
  | rem (comment : String)
  | delay (ms : Int)
  | set_default_delay (ms : Int)
  | typewrite (text : String)
  | hotkey (keys : List (Option String))
  | rpt (target : RTarget) (n : Int)
deriving DecidableEq

/-- A DuckyCommand object.  skip_delay is the mutable _skip_delay flag;
own_default_delay is the instance's _default_delay; hasScript records
whether a script interface dict was supplied at construction (it is
never reassigned afterwards). -/
structure DuckyCommand where
  raw_line : String
  lineno : Int
  skip_delay : Bool
  own_default_delay : Int
  hasScript : Bool
  pyfunc : PyFunc
deriving DecidableEq

/-- Binding state of self.commands on a DuckyScript: initially the very
list stored in the _script interface dict (sameAsScript); after a
successful load a tuple (frozen); after the reload check a fresh list
distinct from the one in _script (fresh). -/
inductive SelfCmds where
  | sameAsScript
  | frozen (idxs : List Nat)
  | fresh (idxs : List Nat)
deriving DecidableEq

/-- Mutable state of a DuckyScript together with the heap of all
DuckyCommand objects constructed so far (objects are addressed by heap
index, modelling Python references).  scriptRefs is the list object held
in _script['commands']; selfCmds is what self.commands is currently
bound to. -/
structure PyState where
  heap : List DuckyCommand
  default_delay : Int
  scriptRefs : List Nat
  selfCmds : SelfCmds
deriving DecidableEq

/-- DuckyScript.__init__ (path validation aside): empty command list
shared between self.commands and _script['commands'], default delay 0. -/
def mkScript : PyState :=
  { heap := [], default_delay := 0, scriptRefs := [], selfCmds := .sameAsScript }

/-- The current contents of self.commands. -/
def selfIdxs (st : PyState) : List Nat :=
  match st.selfCmds with
  | .sameAsScript => st.scriptRefs
  | .frozen l => l
  | .fresh l => l

/-- The check type(self.commands) == tuple used by load and run. -/
def isFrozen (st : PyState) : Bool :=
  match st.selfCmds with
  | .frozen _ => true
  | _ => false

/-- self.commands.append(dcmd): while self.commands is the list shared
with _script the append is visible through both; after a reload it only
affects the fresh list.  (Appending to a frozen tuple cannot happen:
load replaces a tuple by a fresh list before appending.) -/
def appendSelf (st : PyState) (i : Nat) : PyState :=
  match st.selfCmds with
  | .sameAsScript => { st with scriptRefs := st.scriptRefs ++ [i] }
  | .fresh l => { st with selfCmds := .fresh (l ++ [i]) }
  | .frozen l => { st with selfCmds := .frozen (l ++ [i]) }

/-- Python list indexing, with negative indices counting from the end;
none is an IndexError. -/
def pyGet {α : Type} (l : List α) (i : Int) : Option α :=
  if 0 ≤ i then l.get? i.toNat
  else if 0 ≤ (l.length : Int) + i then l.get? ((l.length : Int) + i).toNat
  else none

/-- DuckyCommand._to_python on one raw line: strip, split once on a
space, gate through is_valid_cmd, resolve a verb alias, then dispatch.
`lineno` is self.lineno, `hasScript` whether a script dict was given,
`cmds` the list in _script['commands'] (heap indices).  Returns the
python_func together with the final value of self._skip_delay (set to
true in the REM branch).  The REPEAT target lookup commands[lineno - 1]
never raises (IndexError is caught and turned into the bare fallback),
so resolving it at the leaf after the int() parse is observationally the
same as the source's order. -/
def toPython (dline : String) (lineno : Int) (hasScript : Bool)
    (cmds : List Nat) : Except Err (PyFunc × Bool) :=
  let sp := pySplitOnce (pyStrip dline)
  if is_valid_cmd sp.1 = false then .error .valueError
  else
    let verb := if is_valid_alias sp.1 then get_alias_target sp.1 else sp.1
    if verb = "REM" then
      match sp.2 with
      | none => .error .indexError
      | some rest => .ok (.rem rest, true)
    else if verb = "DELAY" then
      match sp.2 with
      | none => .error .indexError
      | some rest =>
        match pyInt rest with
        | none => .error .valueError
        | some ms => .ok (.delay ms, false)
    else if verb = "DEFAULT_DELAY" then
      if hasScript = false then .error .typeError
      else
        match sp.2 with
        | none => .error .indexError
        | some rest =>
          match pyInt rest with
          | none => .error .valueError
          | some ms => .ok (.set_default_delay ms, false)
    else if verb = "STRING" then
      match sp.2 with
      | none => .error .indexError
      | some rest => .ok (.typewrite rest, false)
    else if verb = "REPEAT" then
      if hasScript = false then .error .typeError
      else
        match sp.2 with
        | none => .error .indexError
        | some rest =>
          match pyInt rest with
          | none => .error .valueError
          | some n =>
            .ok (.rpt (match pyGet cmds (lineno - 1) with
                       | some j => .ref j
                       | none => .bare) n, false)
    else
      let toks := verb :: (match sp.2 with | none => [] | some r => [r])
      let keys := (toks.map translate_key).flatten
      if keys.contains none then .error .typeError
      else .ok (.hotkey keys, false)

/-- Construction of a DuckyCommand inside load and its append to
self.commands: the stripped line, the physical line number, the script
interface of the owning script. -/
def buildCmd (stripped : String) (lineno : Nat) (st : PyState) :
    Except Err PyState :=
  match toPython stripped (Int.ofNat lineno) true st.scriptRefs with
  | .error e => .error e
  | .ok (pf, skipd) =>
    let obj : DuckyCommand :=
      { raw_line := stripped, lineno := Int.ofNat lineno, skip_delay := skipd,
        own_default_delay := 0, hasScript := true, pyfunc := pf }
    .ok (appendSelf { st with heap := st.heap ++ [obj] } st.heap.length)

/-- The line loop of DuckyScript.load: strip each line, skip blanks,
construct and append a command from each nonblank line; a construction
failure is logged with the line number and re-raised, leaving the state
as already mutated. -/
def loadAux : List String → Nat → PyState → PyState × Option (Nat × Err)
  | [], _, st => (st, none)
  | line :: rest, n, st =>
    if (pyStrip line).length > 0 then
      match buildCmd (pyStrip line) n st with
      | .error e => (st, some (n, e))
      | .ok st' => loadAux rest (n + 1) st'
    else loadAux rest (n + 1) st

/-- self.commands = tuple(self.commands) at the end of a successful
load. -/
def freeze (st : PyState) : PyState :=
  { st with selfCmds := .frozen (selfIdxs st) }

/-- The reload check at the top of DuckyScript.load: if self.commands is
already a tuple, rebind it to a fresh empty list (note that
_script['commands'] keeps referring to the original list). -/
def resetIfFrozen (st : PyState) : PyState :=
  if isFrozen st then { st with selfCmds := .fresh [] } else st

/-- DuckyScript.load over the list of file lines: the reload check, then
the line loop, and on success self.commands = tuple(self.commands).  The
second component is the propagated failure, paired with the line number
that load logs. -/
def load (lines : List String) (st : PyState) :
    PyState × Option (Nat × Err) :=
  match loadAux lines 0 (resetIfFrozen st) with
  | (st', none) => (freeze st', none)
  | (st', some e) => (st', some e)

/-- Observable effects of executing commands: the default-delay sleep
performed by execute() before the action, and the verb actions
themselves (_cmd_delay's sleep, pyautogui.typewrite, pyautogui.hotkey,
the script's set_default_delay, _cmd_rem's no-op). -/
inductive Event where
  | defaultSleep (ms : Int)
  | slept (ms : Int)
  | typed (text : String)
  | pressed (keys : List (Option String))
  | setDelay (ms : Int)
  | noop (comment : String)
deriving DecidableEq

/-- The default_delay property of DuckyCommand: the owning script's
current value when the command was constructed with a script interface,
otherwise the command's own stored value. -/
def effDelay (st : PyState) (c : DuckyCommand) : Int :=
  if c.hasScript then st.default_delay else c.own_default_delay

/-- Mutation dcmd._skip_delay = b on the heap object j. -/
def setSkip (st : PyState) (j : Nat) (b : Bool) : PyState :=
  match st.heap.get? j with
  | none => st
  | some c => { st with heap := st.heap.set j { c with skip_delay := b } }

/-- The sleep execute() performs before the action: nothing when
_skip_delay is set; otherwise _cmd_delay(self.default_delay), which
raises ValueError when the delay is negative. -/
def preEvents (skip : Bool) (d : Int) : Except Err (List Event) :=
  if skip then .ok []
  else if d < 0 then .error .valueError
  else .ok [Event.defaultSleep d]

/-- The loop of _cmd_repeat: execute the target k times in sequence,
threading state and concatenating traces, where `exec1` executes one
command.  (range(num_times) is empty for a nonpositive count.) -/
def execLoop (exec1 : PyState → Nat → Except Err (PyState × List Event)) :
    PyState → Nat → Nat → Except Err (PyState × List Event)
  | st, _, 0 => .ok (st, [])
  | st, j, k + 1 =>
    match exec1 st j with
    | .error e => .error e
    | .ok (st1, t1) =>
      match execLoop exec1 st1 j k with
      | .error e => .error e
      | .ok (st2, t2) => .ok (st2, t1 ++ t2)

/-- One step of DuckyCommand.execute on the heap object i, with `exec1`
executing the nested calls a REPEAT makes: the default-delay sleep, then
the python_func.  _cmd_repeat sets _skip_delay on the referenced object,
runs the loop, and resets the flag; when the target is the bare _cmd_rem
function, setting the attribute succeeds but the first loop iteration's
.execute() raises AttributeError (an empty loop returns unharmed). -/
def execCmdF (exec1 : PyState → Nat → Except Err (PyState × List Event))
    (st : PyState) (i : Nat) : Except Err (PyState × List Event) :=
  match st.heap.get? i with
  | none => .error .outOfFuel
  | some c =>
    match preEvents c.skip_delay (effDelay st c) with
    | .error e => .error e
    | .ok pre =>
      match c.pyfunc with
      | .rem s1 => .ok (st, pre ++ [Event.noop s1])
      | .delay ms =>
        if ms < 0 then .error .valueError else .ok (st, pre ++ [Event.slept ms])
      | .set_default_delay ms =>
        .ok ({ st with default_delay := ms }, pre ++ [Event.setDelay ms])
      | .typewrite s1 => .ok (st, pre ++ [Event.typed s1])
      | .hotkey ks => .ok (st, pre ++ [Event.pressed ks])
      | .rpt .bare n =>
        if 0 < n then .error .attributeError else .ok (st, pre)
      | .rpt (.ref j) n =>
        match execLoop exec1 (setSkip st j true) j n.toNat with
        | .error e => .error e
        | .ok (st2, tr2) => .ok (setSkip st2 j false, pre ++ tr2)

/-- DuckyCommand.execute, bounded by fuel (the source has no bound; the
nesting depth of REPEAT targets in a loaded script is finite, so enough
fuel always exists). -/
def execCmd : Nat → PyState → Nat → Except Err (PyState × List Event)
  | 0, _, _ => .error .outOfFuel
  | fuel + 1, st, i => execCmdF (execCmd fuel) st i

/-- Number of lines an attempted load successfully parses before its
first failing line (blank lines contribute nothing); mirrors the loop of
loadAux. -/
def countOkSt : List String → Nat → PyState → Nat
  | [], _, _ => 0
  | line :: rest, n, st =>
    if (pyStrip line).length > 0 then
      match buildCmd (pyStrip line) n st with
      | .error _ => 0
      | .ok st' => 1 + countOkSt rest (n + 1) st'
    else countOkSt rest (n + 1) st

/-- Physical 0-based indices of the nonblank lines, starting the count
at n. -/
def nonblankAux : List String → Nat → List Nat
  | [], _ => []
  | line :: rest, n =>
    if (pyStrip line).length > 0 then n :: nonblankAux rest (n + 1)
    else nonblankAux rest (n + 1)

/-- The k consecutive naturals starting at s. -/
def idxsFrom (s : Nat) : Nat → List Nat
  | 0 => []
  | k + 1 => s :: idxsFrom (s + 1) k

lemma splitCh_ne_nil (c : Char) : ∀ l, splitCh c l ≠ [] := by
  intro l
  induction l with
  | nil => simp [splitCh]
  | cons x xs ih =>
    simp only [splitCh]
    split
    · simp
    · cases h : splitCh c xs with
      | nil => exact absurd h ih
      | cons hd tl => simp [h]

lemma splitCh_not_mem (c : Char) : ∀ l p, p ∈ splitCh c l → c ∉ p := by
  intro l
  induction l with
  | nil =>
    intro p hp
    simp only [splitCh, List.mem_singleton] at hp
    subst hp; simp
  | cons x xs ih =>
    intro p hp
    by_cases hx : x = c
    · rw [splitCh, if_pos hx] at hp
      rcases List.mem_cons.mp hp with h | h
      · subst h; simp
      · exact ih p h
    · rw [splitCh, if_neg hx] at hp
      cases hs : splitCh c xs with
      | nil => exact absurd hs (splitCh_ne_nil c xs)
      | cons hd tl =>
        rw [hs] at hp
        rcases List.mem_cons.mp hp with h | h
        · subst h
          intro hc
          rcases List.mem_cons.mp hc with h' | h'
          · exact hx h'.symm
          · exact ih hd (hs ▸ List.mem_cons_self hd tl) h'
        · exact ih p (hs ▸ List.mem_cons_of_mem hd h)

lemma translate_key_nodash {s : String} (h : '-' ∉ s.toList) :
    translate_key s = [translate_single s] := by
  rw [translate_key, if_neg h]

lemma flatten_map_singleton {α β : Type} (f : α → β) (l : List α) :
    (l.map fun x => [f x]).flatten = l.map f := by
  induction l with
  | nil => rfl
  | cons x xs ih => simp [ih]

/-- C8.  translate_key distributes over the dash separator: for a token
containing a dash, its translation is the concatenation of translate_key
applied to each dash-separated part independently (each part is resolved
on its own, no combined lookup). -/
theorem c8_translate_key_dash (dkey : String) (h : '-' ∈ dkey.toList) :
    translate_key dkey =
      ((splitCh '-' dkey.toList).map fun p => translate_key (String.mk p)).flatten := by
  rw [translate_key, if_pos h]
  have hparts : ∀ p ∈ splitCh '-' dkey.toList,
      translate_key (String.mk p) = [translate_single (String.mk p)] := by
    intro p hp
    exact translate_key_nodash (splitCh_not_mem '-' dkey.toList p hp)
  have h2 : (splitCh '-' dkey.toList).map (fun p => translate_key (String.mk p)) =
      (splitCh '-' dkey.toList).map (fun p => [translate_single (String.mk p)]) :=
    List.map_congr_left hparts
  rw [h2, flatten_map_singleton]

/-- Witness for C8 at the token CTRL-ALT. -/
theorem c8_witness :
    ('-' ∈ ("CTRL-ALT" : String).toList) ∧
    translate_key "CTRL-ALT" =
      ((splitCh '-' ("CTRL-ALT" : String).toList).map fun p => translate_key (String.mk p)).flatten :=
  ⟨by decide, c8_translate_key_dash "CTRL-ALT" (by decide)⟩

/-- C1.  A script whose very first statement is REPEAT 2 translates
successfully with the bare no-op fallback as the reference (so far
matching the claim), but executing the resulting Repeat command raises
AttributeError instead of performing a no-op twice: the fallback is the
raw _cmd_rem function, and _cmd_repeat calls .execute() on it. -/
theorem c1_repeat_first_line_crashes :
    (load ["REPEAT 2"] mkScript).2 = none ∧
    ((load ["REPEAT 2"] mkScript).1.heap.get? 0).map DuckyCommand.pyfunc =
      some (.rpt .bare 2) ∧
    execCmd 9 (load ["REPEAT 2"] mkScript).1 0 = .error .attributeError :=
  ⟨rfl, rfl, rfl⟩

/-- C2.  The validity gate looks only at the first token: GUI passes
is_valid_cmd and is not a statement verb, so the line "GUI zzzz" reaches
the implicit key-press branch, yet its second token translates to the
unresolved None sentinel; the key sequence therefore contains None and
translation blows up with a TypeError (from formatting the keys in the
debug log) instead of being guaranteed resolvable. -/
theorem c2_second_token_not_validated :
    is_valid_cmd "GUI" = true ∧
    COMMANDS.contains "GUI" = false ∧
    translate_key "zzzz" = [none] ∧
    toPython "GUI zzzz" 0 true [] = .error .typeError :=
  ⟨rfl, rfl, rfl, rfl⟩

/-- Counterexample to C7: the line "REM", a recognized verb with no
space after it, does not translate to a command with an empty comment;
split(' ', maxsplit=1) yields a one-element list and accessing the
missing dline[1] raises IndexError, which load propagates. -/
theorem c7_counterexample :
    toPython "REM" 0 true [] = .error .indexError ∧
    (load ["REM"] mkScript).2 = some (0, Err.indexError) :=
  ⟨rfl, rfl⟩

/-- C7 (amended).  A line that strips to one of the five statement verbs
with no space after it splits into just the verb token with no
remainder, and every verb branch then fails with IndexError when it
accesses the missing argument — verb-only lines are parse failures, not
commands with an empty argument. -/
theorem c7_verb_only_fails (s : String) (n : Int) (l : List Nat)
    (h : pyStrip s ∈ COMMANDS) :
    toPython s n true l = .error .indexError := by
  have h' : pyStrip s = "REM" ∨ pyStrip s = "DEFAULT_DELAY" ∨
      pyStrip s = "DELAY" ∨ pyStrip s = "STRING" ∨ pyStrip s = "REPEAT" := by
    simpa [COMMANDS] using h
  rcases h' with h1 | h1 | h1 | h1 | h1 <;>
    (unfold toPython; rw [h1]) <;> rfl

/-- Witness for the amended C7 at the line DELAY (with arbitrary other
arguments). -/
theorem c7_witness :
    (pyStrip "DELAY" ∈ COMMANDS) ∧
    toPython "DELAY" 7 true [0] = .error .indexError :=
  ⟨by decide, c7_verb_only_fails "DELAY" 7 [0] (by decide)⟩

/-- Counterexample to C3: loading the two-line script [REM hi, QQQQ]
fails at line 1, yet the command built from line 0 is retained in
self.commands — the command sequence is not left empty. -/
theorem c3_counterexample :
    (load ["REM hi", "QQQQ"] mkScript).2 = some (1, Err.valueError) ∧
    selfIdxs (load ["REM hi", "QQQQ"] mkScript).1 = [0] ∧
    isFrozen (load ["REM hi", "QQQQ"] mkScript).1 = false :=
  ⟨rfl, rfl, rfl⟩

/-- Counterexample to C4: after loading [REM a, blank, REM b] the
command stored at position 1 of the list comes from physical line 2, not
line 1; and in [STRING a, blank, REPEAT 1] the REPEAT at physical line 2
does not find the physically previous statement — commands[lineno - 1]
is out of range, so its reference is the no-op fallback instead of the
STRING command. -/
theorem c4_counterexample :
    (load ["REM a", "", "REM b"] mkScript).2 = none ∧
    ((load ["REM a", "", "REM b"] mkScript).1.heap.get? 1).map DuckyCommand.lineno =
      some 2 ∧
    ((load ["STRING a", "", "REPEAT 1"] mkScript).1.heap.get? 1).map DuckyCommand.pyfunc =
      some (.rpt .bare 1) :=
  ⟨rfl, rfl, rfl⟩

lemma buildCmd_ok {s : String} {n : Nat} {st st' : PyState}
    (h : buildCmd s n st = .ok st') :
    ∃ obj : DuckyCommand,
      st'.heap = st.heap ++ [obj] ∧
      obj.lineno = Int.ofNat n ∧
      selfIdxs st' = selfIdxs st ++ [st.heap.length] ∧
      st'.default_delay = st.default_delay ∧
      isFrozen st' = isFrozen st := by
  unfold buildCmd at h
  cases htp : toPython s (Int.ofNat n) true st.scriptRefs with
  | error e => rw [htp] at h; exact absurd h (by simp)
  | ok pr =>
    obtain ⟨pf, skipd⟩ := pr
    rw [htp] at h
    simp only [Except.ok.injEq] at h
    subst h
    refine ⟨{ raw_line := s, lineno := Int.ofNat n, skip_delay := skipd,
              own_default_delay := 0, hasScript := true, pyfunc := pf }, ?_, rfl, ?_, ?_, ?_⟩ <;>
      cases hsc : st.selfCmds <;>
        simp [appendSelf, selfIdxs, isFrozen, hsc]

lemma loadAux_dd : ∀ (lines : List String) (n : Nat) (st : PyState),
    ((loadAux lines n st).1).default_delay = st.default_delay := by
  intro lines
  induction lines with
  | nil => intro n st; rfl
  | cons line rest ih =>
    intro n st
    simp only [loadAux]
    split
    · cases hb : buildCmd (pyStrip line) n st with
      | error e => simp [hb]
      | ok st' =>
        simp only [hb]
        rw [ih]
        obtain ⟨_, _, _, _, hdd, _⟩ := buildCmd_ok hb
        exact hdd
    · exact ih _ _

lemma loadAux_notFrozen : ∀ (lines : List String) (n : Nat) (st : PyState),
    isFrozen ((loadAux lines n st).1) = isFrozen st := by
  intro lines
  induction lines with
  | nil => intro n st; rfl
  | cons line rest ih =>
    intro n st
    simp only [loadAux]
    split
    · cases hb : buildCmd (pyStrip line) n st with
      | error e => simp [hb]
      | ok st' =>
        simp only [hb]
        rw [ih]
        obtain ⟨_, _, _, _, _, hfr⟩ := buildCmd_ok hb
        exact hfr
    · exact ih _ _

lemma loadAux_err_len : ∀ (lines : List String) (n : Nat) (st : PyState)
    (k : Nat) (e : Err), (loadAux lines n st).2 = some (k, e) →
    (selfIdxs (loadAux lines n st).1).length =
      (selfIdxs st).length + countOkSt lines n st := by
  intro lines
  induction lines with
  | nil => intro n st k e h; exact absurd h (by simp [loadAux])
  | cons line rest ih =>
    intro n st k e h
    by_cases hnb : (pyStrip line).length > 0
    · cases hb : buildCmd (pyStrip line) n st with
      | error e' =>
        simp only [loadAux, countOkSt, if_pos hnb, hb] at h ⊢
        simp
      | ok st' =>
        simp only [loadAux, countOkSt, if_pos hnb, hb] at h ⊢
        obtain ⟨_, _, _, hself, _, _⟩ := buildCmd_ok hb
        have := ih (n + 1) st' k e h
        rw [this, hself]
        simp only [List.length_append, List.length_singleton]
        omega
    · simp only [loadAux, countOkSt, if_neg hnb] at h ⊢
      exact ih (n + 1) st k e h

lemma idxsFrom_length (s : Nat) : ∀ k, (idxsFrom s k).length = k := by
  intro k
  induction k generalizing s with
  | zero => rfl
  | succ k ih => simp [idxsFrom, ih]

lemma loadAux_ok_spec : ∀ (lines : List String) (n : Nat) (st : PyState),
    (loadAux lines n st).2 = none →
    ∃ objs : List DuckyCommand,
      (loadAux lines n st).1.heap = st.heap ++ objs ∧
      objs.map DuckyCommand.lineno = (nonblankAux lines n).map Int.ofNat ∧
      selfIdxs (loadAux lines n st).1 =
        selfIdxs st ++ idxsFrom st.heap.length objs.length := by
  intro lines
  induction lines with
  | nil =>
    intro n st _
    exact ⟨[], by simp [loadAux], by simp [nonblankAux], by simp [loadAux, idxsFrom]⟩
  | cons line rest ih =>
    intro n st h
    by_cases hnb : (pyStrip line).length > 0
    · cases hb : buildCmd (pyStrip line) n st with
      | error e' =>
        simp only [loadAux, if_pos hnb, hb] at h
        exact absurd h (by simp)
      | ok st' =>
        simp only [loadAux, nonblankAux, if_pos hnb, hb] at h ⊢
        obtain ⟨obj, hheap, hline, hself, _, _⟩ := buildCmd_ok hb
        obtain ⟨objs', hh', hl', hs'⟩ := ih (n + 1) st' h
        refine ⟨obj :: objs', ?_, ?_, ?_⟩
        · rw [hh', hheap, List.append_assoc]
          rfl
        · simp only [List.map_cons, hline, hl']
        · rw [hs', hself, hheap]
          simp [idxsFrom, List.append_assoc]
    · simp only [loadAux, nonblankAux, if_neg hnb] at h ⊢
      obtain ⟨objs', hh', hl', hs'⟩ := ih (n + 1) st h
      exact ⟨objs', hh', hl', hs'⟩

lemma isFrozen_reset (st : PyState) : isFrozen (resetIfFrozen st) = false := by
  unfold resetIfFrozen
  by_cases hf : isFrozen st = true
  · rw [if_pos hf]; rfl
  · rw [if_neg hf]; simpa using hf

/-- C3 (amended).  When a load attempt fails, the failure carries the
failing line's number, the script is left unfrozen (not marked loaded),
and self.commands still holds exactly the commands parsed before the
failing line on top of whatever the list held when the attempt started —
partial results are retained, not discarded. -/
theorem c3_partial_load_retained (lines : List String) (st : PyState)
    (k : Nat) (e : Err) (h : (load lines st).2 = some (k, e)) :
    isFrozen (load lines st).1 = false ∧
    (selfIdxs (load lines st).1).length =
      (selfIdxs (resetIfFrozen st)).length + countOkSt lines 0 (resetIfFrozen st) := by
  unfold load at h ⊢
  cases hl : loadAux lines 0 (resetIfFrozen st) with
  | mk st' err? =>
    rw [hl] at h
    cases err? with
    | none => exact Option.noConfusion h
    | some pe =>
      have hke : pe = (k, e) := Option.some.inj h
      constructor
      · have h2 := loadAux_notFrozen lines 0 (resetIfFrozen st)
        rw [hl] at h2
        exact h2.trans (isFrozen_reset st)
      · have h3 := loadAux_err_len lines 0 (resetIfFrozen st) k e
        rw [hl] at h3
        exact h3 (by rw [hke])

/-- Witness for the amended C3: the one-line script [QQQQ] fails at line
0 and retains nothing, leaving the script unfrozen. -/
theorem c3_witness :
    isFrozen (load ["QQQQ"] mkScript).1 = false ∧
    (selfIdxs (load ["QQQQ"] mkScript).1).length = 0 :=
  have h := c3_partial_load_retained ["QQQQ"] mkScript 0 .valueError rfl
  ⟨h.1, h.2⟩

lemma idxsFrom_map_get?_shift {α β : Type} (f : α → β) (a : α) (l : List α) :
    ∀ (k s : Nat),
      (idxsFrom (s + 1) k).map (fun i => ((a :: l).get? i).map f) =
        (idxsFrom s k).map (fun i => (l.get? i).map f) := by
  intro k
  induction k with
  | zero => intro s; rfl
  | succ k ih =>
    intro s
    simp only [idxsFrom, List.map_cons]
    rw [ih (s + 1)]
    rfl

lemma idxsFrom_map_get? {α β : Type} (f : α → β) :
    ∀ l : List α,
      (idxsFrom 0 l.length).map (fun i => (l.get? i).map f) =
        l.map fun a => some (f a) := by
  intro l
  induction l with
  | nil => rfl
  | cons a l ih =>
    simp only [List.length_cons, idxsFrom, List.map_cons]
    rw [idxsFrom_map_get?_shift f a l l.length 0, ih]
    rfl

/-- C4 (amended).  For a successfully loaded script, the command at
position i of the command list is the one built from the i-th nonblank
physical line, whose lineno field records that physical 0-based line
number — list position and physical line number agree only while no
blank line has occurred. -/
theorem c4_position_maps_nonblank (lines : List String)
    (h : (load lines mkScript).2 = none) :
    (selfIdxs (load lines mkScript).1).map
        (fun i => ((load lines mkScript).1.heap.get? i).map DuckyCommand.lineno) =
      (nonblankAux lines 0).map fun n => some (Int.ofNat n) := by
  unfold load at h ⊢
  have hres : resetIfFrozen mkScript = mkScript := rfl
  rw [hres] at h ⊢
  cases hl : loadAux lines 0 mkScript with
  | mk st' err? =>
    rw [hl] at h
    cases err? with
    | some pe => exact Option.noConfusion h
    | none =>
      show (selfIdxs (freeze st')).map
          (fun i => ((freeze st').heap.get? i).map DuckyCommand.lineno) =
        (nonblankAux lines 0).map fun n => some (Int.ofNat n)
      obtain ⟨objs, hheap, hline, hself⟩ := loadAux_ok_spec lines 0 mkScript (by rw [hl])
      rw [hl] at hheap hself
      have hheap' : st'.heap = objs := by simpa [mkScript] using hheap
      have hself' : selfIdxs st' = idxsFrom 0 objs.length := by
        simpa [mkScript, selfIdxs] using hself
      have hsf : selfIdxs (freeze st') = selfIdxs st' := by simp [freeze, selfIdxs]
      rw [hsf, show (freeze st').heap = st'.heap from rfl, hself', hheap']
      rw [idxsFrom_map_get? DuckyCommand.lineno objs]
      have h4 : (objs.map DuckyCommand.lineno).map some =
          ((nonblankAux lines 0).map Int.ofNat).map some := by rw [hline]
      simpa [List.map_map, Function.comp] using h4

/-- Witness for the amended C4 at the script [REM a, blank, REM b]: the
two list positions map to physical lines 0 and 2. -/
theorem c4_witness :
    (selfIdxs (load ["REM a", "", "REM b"] mkScript).1).map
        (fun i => ((load ["REM a", "", "REM b"] mkScript).1.heap.get? i).map DuckyCommand.lineno) =
      [some 0, some 2] :=
  c4_position_maps_nonblank ["REM a", "", "REM b"] rfl

/-- C9.  Loading never touches the script's default delay, and reloading
an already-loaded (frozen) script replaces the command list entirely:
on success the new list consists precisely of consecutive fresh heap
slots minted by this pass (none of the earlier load's commands appear),
and the script is frozen again. -/
theorem c9_reload (lines : List String) (st : PyState)
    (hf : isFrozen st = true) :
    (load lines st).1.default_delay = st.default_delay ∧
    ((load lines st).2 = none →
      isFrozen (load lines st).1 = true ∧
      selfIdxs (load lines st).1 =
        idxsFrom st.heap.length (selfIdxs (load lines st).1).length ∧
      (load lines st).1.heap.length =
        st.heap.length + (selfIdxs (load lines st).1).length) := by
  unfold load
  have hrs : resetIfFrozen st = { st with selfCmds := .fresh [] } := by
    unfold resetIfFrozen
    rw [if_pos hf]
  rw [hrs]
  cases hl : loadAux lines 0 { st with selfCmds := .fresh [] } with
  | mk st' err? =>
    have hdd := loadAux_dd lines 0 { st with selfCmds := .fresh [] }
    rw [hl] at hdd
    cases err? with
    | some pe =>
      constructor
      · exact hdd
      · intro hcontra
        exact Option.noConfusion hcontra
    | none =>
      constructor
      · exact hdd
      · intro _
        obtain ⟨objs, hheap, _, hself⟩ :=
          loadAux_ok_spec lines 0 { st with selfCmds := .fresh [] } (by rw [hl])
        rw [hl] at hheap hself
        have hheap' : st'.heap = st.heap ++ objs := by simpa using hheap
        have hself' : selfIdxs st' = idxsFrom st.heap.length objs.length := by
          simpa [selfIdxs] using hself
        have hsf : selfIdxs (freeze st') = selfIdxs st' := by simp [freeze, selfIdxs]
        refine ⟨rfl, ?_, ?_⟩
        · show selfIdxs (freeze st') =
            idxsFrom st.heap.length (selfIdxs (freeze st')).length
          rw [hsf, hself', idxsFrom_length]
        · show (freeze st').heap.length =
            st.heap.length + (selfIdxs (freeze st')).length
          rw [show (freeze st').heap = st'.heap from rfl, hsf, hself',
            idxsFrom_length, hheap']
          simp

/-- Witness for C9: reloading the loaded one-line script [REM a] with
the new line [STRING x] keeps the default delay, refreezes, and the new
list is the single fresh slot 1 (the old command lived in slot 0). -/
theorem c9_witness :
    (load ["STRING x"] (load ["REM a"] mkScript).1).1.default_delay = 0 ∧
    isFrozen (load ["STRING x"] (load ["REM a"] mkScript).1).1 = true ∧
    selfIdxs (load ["STRING x"] (load ["REM a"] mkScript).1).1 = [1] :=
  have h := c9_reload ["STRING x"] (load ["REM a"] mkScript).1 rfl
  have h2 := h.2 rfl
  ⟨h.1, h2.1, h2.2.1⟩

/-- The one observable event of executing a primitive (non-REPEAT)
python_func, when that action succeeds; none for a REPEAT or for
_cmd_delay on a negative duration (which raises). -/
def actEvent : PyFunc → Option Event
  | .rem s => some (.noop s)
  | .delay ms => if ms < 0 then none else some (.slept ms)
  | .set_default_delay ms => some (.setDelay ms)
  | .typewrite s => some (.typed s)
  | .hotkey ks => some (.pressed ks)
  | .rpt _ _ => none

/-- Recognizer for the default-delay sleep event. -/
def isDefaultSleep : Event → Bool
  | .defaultSleep _ => true
  | _ => false

lemma actEvent_not_defaultSleep {p : PyFunc} {ev : Event}
    (h : actEvent p = some ev) : isDefaultSleep ev = false := by
  cases p with
  | rem s => rw [← Option.some.inj h]; rfl
  | delay ms =>
    simp only [actEvent] at h
    by_cases hms : ms < 0
    · rw [if_pos hms] at h; exact Option.noConfusion h
    · rw [if_neg hms] at h; rw [← Option.some.inj h]; rfl
  | set_default_delay ms => rw [← Option.some.inj h]; rfl
  | typewrite s => rw [← Option.some.inj h]; rfl
  | hotkey ks => rw [← Option.some.inj h]; rfl
  | rpt t n => exact Option.noConfusion h

lemma get?_set_self {α : Type} : ∀ (l : List α) (i : Nat) (a b : α),
    l.get? i = some a → (l.set i b).get? i = some b := by
  intro l
  induction l with
  | nil => intro i a b h; exact Option.noConfusion h
  | cons x xs ih =>
    intro i a b h
    cases i with
    | zero => rfl
    | succ i => exact ih i a b h

lemma setSkip_get_self {st : PyState} {j : Nat} {c : DuckyCommand}
    (h : st.heap.get? j = some c) (b : Bool) :
    (setSkip st j b).heap.get? j = some { c with skip_delay := b } := by
  unfold setSkip
  rw [h]
  exact get?_set_self st.heap j c { c with skip_delay := b } h

lemma setSkip_heap_length (st : PyState) (j : Nat) (b : Bool) :
    (setSkip st j b).heap.length = st.heap.length := by
  unfold setSkip
  cases h : st.heap.get? j
  · rfl
  · simp [List.length_set]

lemma preEvents_false {d : Int} (h : ¬ d < 0) :
    preEvents false d = .ok [Event.defaultSleep d] := by
  simp [preEvents, h]

lemma preEvents_false_err {d : Int} (h : d < 0) :
    preEvents false d = .error .valueError := by
  simp [preEvents, h]

/-- C6.  Whenever executing a command succeeds and its skip flag is
clear, the very first thing it does is sleep the command's effective
default delay: the owning script's current default-delay value when the
command was constructed with a script interface (hasScript, fixed at
construction), otherwise the command's own stored default delay. -/
theorem c6_default_delay_binding (f : Nat) (st st' : PyState) (i : Nat)
    (c : DuckyCommand) (tr : List Event)
    (hc : st.heap.get? i = some c) (hskip : c.skip_delay = false)
    (hex : execCmd f st i = .ok (st', tr)) :
    tr.head? = some (.defaultSleep (effDelay st c)) := by
  cases f with
  | zero => exact Except.noConfusion hex
  | succ f =>
    rw [show execCmd (f + 1) st i = execCmdF (execCmd f) st i from rfl] at hex
    unfold execCmdF at hex
    rw [hc] at hex
    simp only [hskip] at hex
    by_cases hd : effDelay st c < 0
    · rw [preEvents_false_err hd] at hex
      exact Except.noConfusion hex
    · rw [preEvents_false hd] at hex
      cases hcp : c.pyfunc with
      | rem s =>
        simp [hcp] at hex
        obtain ⟨-, h2⟩ := hex
        subst h2; rfl
      | delay ms =>
        by_cases hms : ms < 0
        · simp [hcp, hms] at hex
        · simp [hcp, hms] at hex
          obtain ⟨-, h2⟩ := hex
          subst h2; rfl
      | set_default_delay ms =>
        simp [hcp] at hex
        obtain ⟨-, h2⟩ := hex
        subst h2; rfl
      | typewrite s =>
        simp [hcp] at hex
        obtain ⟨-, h2⟩ := hex
        subst h2; rfl
      | hotkey ks =>
        simp [hcp] at hex
        obtain ⟨-, h2⟩ := hex
        subst h2; rfl
      | rpt target n =>
        cases target with
        | bare =>
          by_cases hn : 0 < n
          · simp [hcp, hn] at hex
          · simp [hcp, hn] at hex
            obtain ⟨-, h2⟩ := hex
            subst h2; rfl
        | ref j =>
          cases hloop : execLoop (execCmd f) (setSkip st j true) j n.toNat with
          | error e => simp [hcp, hloop] at hex
          | ok r2 =>
            obtain ⟨st2, tr2⟩ := r2
            simp [hcp, hloop] at hex
            obtain ⟨-, h2⟩ := hex
            subst h2; rfl

lemma get?_lt {α : Type} : ∀ (l : List α) (i : Nat) (a : α),
    l.get? i = some a → i < l.length := by
  intro l
  induction l with
  | nil => intro i a h; exact Option.noConfusion h
  | cons x xs ih =>
    intro i a h
    cases i with
    | zero => exact Nat.succ_pos _
    | succ i => exact Nat.succ_lt_succ (ih i a h)

lemma get?_of_lt {α : Type} : ∀ (l : List α) (i : Nat),
    i < l.length → ∃ a, l.get? i = some a := by
  intro l
  induction l with
  | nil => intro i h; exact absurd h (by simp)
  | cons x xs ih =>
    intro i h
    cases i with
    | zero => exact ⟨x, rfl⟩
    | succ i => exact ih i (Nat.lt_of_succ_lt_succ h)

lemma execLoop_len (exec1 : PyState → Nat → Except Err (PyState × List Event))
    (h1 : ∀ st j r, exec1 st j = .ok r → r.1.heap.length = st.heap.length) :
    ∀ (k : Nat) (st : PyState) (j : Nat) (r : PyState × List Event),
      execLoop exec1 st j k = .ok r → r.1.heap.length = st.heap.length := by
  intro k
  induction k with
  | zero =>
    intro st j r h
    obtain ⟨st1, tr1⟩ := r
    simp [execLoop] at h
    rw [← h.1]
  | succ k ih =>
    intro st j r h
    obtain ⟨st1, tr1⟩ := r
    cases he : exec1 st j with
    | error e => simp [execLoop, he] at h
    | ok r1 =>
      obtain ⟨sta, ta⟩ := r1
      cases hl2 : execLoop exec1 sta j k with
      | error e => simp [execLoop, he, hl2] at h
      | ok r2 =>
        obtain ⟨stb, tb⟩ := r2
        simp [execLoop, he, hl2] at h
        have hb := ih sta j (stb, tb) hl2
        have ha := h1 st j (sta, ta) he
        rw [← h.1]
        exact hb.trans ha

lemma execCmdF_len (exec1 : PyState → Nat → Except Err (PyState × List Event))
    (h1 : ∀ st j r, exec1 st j = .ok r → r.1.heap.length = st.heap.length) :
    ∀ (st : PyState) (i : Nat) (r : PyState × List Event),
      execCmdF exec1 st i = .ok r → r.1.heap.length = st.heap.length := by
  intro st i r h
  obtain ⟨st1, tr1⟩ := r
  unfold execCmdF at h
  cases hc : st.heap.get? i with
  | none => rw [hc] at h; exact Except.noConfusion h
  | some c =>
    rw [hc] at h
    cases hpre : preEvents c.skip_delay (effDelay st c) with
    | error e => simp [hpre] at h
    | ok pre =>
      cases hcp : c.pyfunc with
      | rem s => simp [hpre, hcp] at h; rw [← h.1]
      | delay ms =>
        by_cases hms : ms < 0
        · simp [hpre, hcp, hms] at h
        · simp [hpre, hcp, hms] at h; rw [← h.1]
      | set_default_delay ms => simp [hpre, hcp] at h; rw [← h.1]
      | typewrite s => simp [hpre, hcp] at h; rw [← h.1]
      | hotkey ks => simp [hpre, hcp] at h; rw [← h.1]
      | rpt target n =>
        cases target with
        | bare =>
          by_cases hn : 0 < n
          · simp [hpre, hcp, hn] at h
          · simp [hpre, hcp, hn] at h; rw [← h.1]
        | ref j =>
          cases hloop : execLoop exec1 (setSkip st j true) j n.toNat with
          | error e => simp [hpre, hcp, hloop] at h
          | ok r2 =>
            obtain ⟨st2, tr2⟩ := r2
            simp [hpre, hcp, hloop] at h
            rw [← h.1, setSkip_heap_length]
            have := execLoop_len exec1 h1 n.toNat (setSkip st j true) j (st2, tr2) hloop
            rw [this, setSkip_heap_length]

lemma execCmd_len : ∀ (f : Nat) (st : PyState) (i : Nat) (r : PyState × List Event),
    execCmd f st i = .ok r → r.1.heap.length = st.heap.length := by
  intro f
  induction f with
  | zero => intro st i r h; exact Except.noConfusion h
  | succ f ih =>
    intro st i r h
    exact execCmdF_len (execCmd f) (fun s j r' h' => ih s j r' h') st i r h

lemma exec_prim_step (f : Nat) (st : PyState) (j : Nat) (S : DuckyCommand)
    (ev : Event) (hS : st.heap.get? j = some S) (hskip : S.skip_delay = true)
    (hA : actEvent S.pyfunc = some ev) :
    ∃ st1, execCmd (f + 1) st j = .ok (st1, [ev]) ∧ st1.heap = st.heap := by
  rw [show execCmd (f + 1) st j = execCmdF (execCmd f) st j from rfl]
  unfold execCmdF
  rw [hS]
  cases hcp : S.pyfunc with
  | rem s =>
    rw [hcp] at hA
    obtain rfl := Option.some.inj hA
    exact ⟨st, by simp [hskip, hcp, preEvents], rfl⟩
  | delay ms =>
    simp only [actEvent, hcp] at hA
    by_cases hms : ms < 0
    · rw [if_pos hms] at hA; exact Option.noConfusion hA
    · rw [if_neg hms] at hA
      obtain rfl := Option.some.inj hA
      exact ⟨st, by simp [hskip, hcp, preEvents, hms], rfl⟩
  | set_default_delay ms =>
    rw [hcp] at hA
    obtain rfl := Option.some.inj hA
    exact ⟨{ st with default_delay := ms }, by simp [hskip, hcp, preEvents], rfl⟩
  | typewrite s =>
    rw [hcp] at hA
    obtain rfl := Option.some.inj hA
    exact ⟨st, by simp [hskip, hcp, preEvents], rfl⟩
  | hotkey ks =>
    rw [hcp] at hA
    obtain rfl := Option.some.inj hA
    exact ⟨st, by simp [hskip, hcp, preEvents], rfl⟩
  | rpt target n =>
    rw [hcp] at hA
    exact Option.noConfusion hA

lemma execLoop_prim (f : Nat) (j : Nat) (S : DuckyCommand) (ev : Event)
    (hskip : S.skip_delay = true) (hA : actEvent S.pyfunc = some ev) :
    ∀ (k : Nat) (st : PyState), st.heap.get? j = some S →
      ∃ st2, execLoop (execCmd (f + 1)) st j k = .ok (st2, List.replicate k ev) ∧
        st2.heap = st.heap := by
  intro k
  induction k with
  | zero => intro st hS; exact ⟨st, rfl, rfl⟩
  | succ k ih =>
    intro st hS
    obtain ⟨st1, hst1, hheap1⟩ := exec_prim_step f st j S ev hS hskip hA
    obtain ⟨st2, hst2, hheap2⟩ := ih st1 (by rw [hheap1]; exact hS)
    refine ⟨st2, ?_, by rw [hheap2, hheap1]⟩
    simp only [execLoop, hst1, hst2]
    simp [List.replicate_succ]

/-- C5.  Executing a Repeat command whose reference is a proper command
S with a primitive, non-raising action (actEvent): the trace is the
Repeat command's own single default-delay sleep followed by exactly n
copies of S's action event — so S's action runs exactly n times in a
tight sequence, S's own default-delay wait happens zero times (at most
once, exactly as the spec's open question notes: the flag is set before
the first iteration), and S's skip flag is false when execution ends. -/
theorem c5_repeat_exec (f : Nat) (st : PyState) (i j : Nat)
    (R S : DuckyCommand) (cnt : Int) (ev : Event)
    (hR : st.heap.get? i = some R)
    (hRp : R.pyfunc = .rpt (.ref j) cnt)
    (hRs : R.skip_delay = false)
    (hRd : ¬ effDelay st R < 0)
    (hS : st.heap.get? j = some S)
    (hA : actEvent S.pyfunc = some ev) :
    (execCmd (f + 2) st i).map Prod.snd =
      .ok (Event.defaultSleep (effDelay st R) :: List.replicate cnt.toNat ev) ∧
    (execCmd (f + 2) st i).map
        (fun r => (r.1.heap.get? j).map DuckyCommand.skip_delay) =
      .ok (some false) ∧
    isDefaultSleep ev = false := by
  have hS1 : (setSkip st j true).heap.get? j = some { S with skip_delay := true } :=
    setSkip_get_self hS true
  have hA1 : actEvent ({ S with skip_delay := true } : DuckyCommand).pyfunc = some ev := hA
  obtain ⟨st2, hloop, hheap2⟩ :=
    execLoop_prim f j { S with skip_delay := true } ev rfl hA1 cnt.toNat
      (setSkip st j true) hS1
  have hexec : execCmd (f + 2) st i =
      .ok (setSkip st2 j false,
        Event.defaultSleep (effDelay st R) :: List.replicate cnt.toNat ev) := by
    rw [show execCmd (f + 2) st i = execCmdF (execCmd (f + 1)) st i from rfl]
    unfold execCmdF
    rw [hR]
    simp [hRs, hRp, preEvents_false hRd, hloop]
  rw [hexec]
  refine ⟨rfl, ?_, actEvent_not_defaultSleep hA⟩
  have h1 : st2.heap.get? j = some { S with skip_delay := true } := by
    rw [hheap2]; exact hS1
  have h2 := setSkip_get_self h1 false
  have h3 : ((setSkip st2 j false).heap.get? j).map DuckyCommand.skip_delay =
      some false := by rw [h2]; rfl
  exact congrArg Except.ok h3

/-- Concrete script state for the C5 witness: STRING hi then REPEAT 3. -/
def c5st : PyState := (load ["STRING hi", "REPEAT 3"] mkScript).1

/-- Witness for C5: in the loaded script [STRING hi, REPEAT 3],
executing the REPEAT yields one default-delay sleep followed by three
typewrite actions, and leaves the STRING command's skip flag false. -/
theorem c5_witness :
    (execCmd 2 c5st 1).map Prod.snd =
      .ok (Event.defaultSleep 0 :: List.replicate 3 (Event.typed "hi")) ∧
    (execCmd 2 c5st 1).map
        (fun r => (r.1.heap.get? 0).map DuckyCommand.skip_delay) =
      .ok (some false) ∧
    isDefaultSleep (Event.typed "hi") = false :=
  c5_repeat_exec 0 c5st 1 0
    { raw_line := "REPEAT 3", lineno := 1, skip_delay := false,
      own_default_delay := 0, hasScript := true, pyfunc := .rpt (.ref 0) 3 }
    { raw_line := "STRING hi", lineno := 0, skip_delay := false,
      own_default_delay := 0, hasScript := true, pyfunc := .typewrite "hi" }
    3 (Event.typed "hi") rfl rfl rfl (by decide) rfl rfl

lemma execCmd_rem_state (f : Nat) (st : PyState) (j : Nat) (T : DuckyCommand)
    (msg : String) (r : PyState × List Event)
    (hT : st.heap.get? j = some T) (hTp : T.pyfunc = .rem msg)
    (h : execCmd f st j = .ok r) : r.1 = st := by
  obtain ⟨st1, tr1⟩ := r
  cases f with
  | zero => exact Except.noConfusion h
  | succ f =>
    rw [show execCmd (f + 1) st j = execCmdF (execCmd f) st j from rfl] at h
    unfold execCmdF at h
    rw [hT] at h
    cases hpre : preEvents T.skip_delay (effDelay st T) with
    | error e => simp [hpre] at h
    | ok pre =>
      simp [hpre, hTp] at h
      exact h.1.symm

lemma execLoop_rem_state (f : Nat) (j : Nat) (T : DuckyCommand) (msg : String)
    (hTp : T.pyfunc = .rem msg) :
    ∀ (k : Nat) (st : PyState) (r : PyState × List Event),
      st.heap.get? j = some T →
      execLoop (execCmd f) st j k = .ok r → r.1 = st := by
  intro k
  induction k with
  | zero =>
    intro st r hT h
    obtain ⟨st1, tr1⟩ := r
    simp [execLoop] at h
    exact h.1.symm
  | succ k ih =>
    intro st r hT h
    obtain ⟨st1, tr1⟩ := r
    cases he : execCmd f st j with
    | error e => simp [execLoop, he] at h
    | ok r1 =>
      obtain ⟨sta, ta⟩ := r1
      have hsta : sta = st := execCmd_rem_state f st j T msg (sta, ta) hT hTp he
      subst hsta
      cases hl2 : execLoop (execCmd f) sta j k with
      | error e => simp [execLoop, he, hl2] at h
      | ok r2 =>
        obtain ⟨stb, tb⟩ := r2
        have hstb : stb = sta := ih sta (stb, tb) hT hl2
        simp [execLoop, he, hl2] at h
        rw [← h.1]
        exact hstb

/-- C10.  When executing a Repeat command referencing the command at j
succeeds, the referenced command's skip-delay flag is false afterwards
no matter what it was before the call (set by the unconditional reset at
the end of _cmd_repeat); in particular, a Comment command — constructed
with the flag true — that has been the target of a completed REPEAT will
perform the default-delay sleep on any subsequent execute() call. -/
theorem c10_flag_reset_after_repeat (f : Nat) (st st' : PyState) (i j : Nat)
    (R S : DuckyCommand) (cnt : Int) (tr : List Event)
    (hR : st.heap.get? i = some R)
    (hRp : R.pyfunc = .rpt (.ref j) cnt)
    (hS : st.heap.get? j = some S)
    (hex : execCmd f st i = .ok (st', tr)) :
    (st'.heap.get? j).map DuckyCommand.skip_delay = some false ∧
    (∀ (msg : String) (g : Nat), S.pyfunc = .rem msg → ¬ effDelay st' S < 0 →
      execCmd (g + 1) st' j =
        .ok (st', [Event.defaultSleep (effDelay st' S), Event.noop msg])) := by
  cases f with
  | zero => exact Except.noConfusion hex
  | succ f =>
    rw [show execCmd (f + 1) st i = execCmdF (execCmd f) st i from rfl] at hex
    unfold execCmdF at hex
    rw [hR] at hex
    cases hpre : preEvents R.skip_delay (effDelay st R) with
    | error e => simp [hpre] at hex
    | ok pre =>
      cases hloop : execLoop (execCmd f) (setSkip st j true) j cnt.toNat with
      | error e => simp [hpre, hRp, hloop] at hex
      | ok r2 =>
        obtain ⟨st2, tr2⟩ := r2
        simp [hpre, hRp, hloop] at hex
        obtain ⟨hst', htr⟩ := hex
        subst hst'
        have hlen : st2.heap.length = st.heap.length := by
          have h1 := execLoop_len (execCmd f)
            (fun s jj r' h' => execCmd_len f s jj r' h') cnt.toNat
            (setSkip st j true) j (st2, tr2) hloop
          rw [setSkip_heap_length] at h1
          exact h1
        have hjlt : j < st2.heap.length := by
          rw [hlen]
          exact get?_lt st.heap j S hS
        obtain ⟨c2, hc2⟩ := get?_of_lt st2.heap j hjlt
        have hset := setSkip_get_self hc2 false
        constructor
        · rw [hset]; rfl
        · intro msg g hSp hd
          have hT : (setSkip st j true).heap.get? j =
              some { S with skip_delay := true } := setSkip_get_self hS true
          have hst2 : st2 = setSkip st j true :=
            execLoop_rem_state f j { S with skip_delay := true } msg hSp
              cnt.toNat (setSkip st j true) (st2, tr2) hT hloop
          subst hst2
          have hfj : (setSkip (setSkip st j true) j false).heap.get? j =
              some { S with skip_delay := false } := setSkip_get_self hT false
          rw [show execCmd (g + 1) (setSkip (setSkip st j true) j false) j =
              execCmdF (execCmd g) (setSkip (setSkip st j true) j false) j from rfl]
          unfold execCmdF
          rw [hfj]
          have hde : effDelay (setSkip (setSkip st j true) j false)
              { raw_line := S.raw_line, lineno := S.lineno, skip_delay := false,
                own_default_delay := S.own_default_delay, hasScript := S.hasScript,
                pyfunc := PyFunc.rem msg } =
              effDelay (setSkip (setSkip st j true) j false) S := rfl
          simp [preEvents, hSp, hde, hd]

/-- Concrete script state for the C10 witness: REM hi then REPEAT 2. -/
def c10state : PyState := (load ["REM hi", "REPEAT 2"] mkScript).1

/-- State after executing the REPEAT of the C10 witness script. -/
def c10after : PyState := setSkip (setSkip c10state 0 true) 0 false

/-- Witness for C10: after REPEAT 2 over the comment completes, the
comment's skip flag is false and a subsequent execute of the comment
does sleep the default delay before its no-op. -/
theorem c10_witness :
    (c10after.heap.get? 0).map DuckyCommand.skip_delay = some false ∧
    execCmd 1 c10after 0 =
      .ok (c10after, [Event.defaultSleep 0, Event.noop "hi"]) :=
  have h := c10_flag_reset_after_repeat 3 c10state c10after 1 0
    { raw_line := "REPEAT 2", lineno := 1, skip_delay := false,
      own_default_delay := 0, hasScript := true, pyfunc := .rpt (.ref 0) 2 }
    { raw_line := "REM hi", lineno := 0, skip_delay := true,
      own_default_delay := 0, hasScript := true, pyfunc := .rem "hi" }
    2 [Event.defaultSleep 0, Event.noop "hi", Event.noop "hi"] rfl rfl rfl rfl
  ⟨h.1, h.2 "hi" 0 rfl (by decide)⟩

/-- Command with no script context for the C6 witness. -/
def c6own : DuckyCommand :=
  { raw_line := "STRING hi", lineno := -1, skip_delay := false,
    own_default_delay := 7, hasScript := false, pyfunc := .typewrite "hi" }

/-- Command with a script context for the C6 witness. -/
def c6script : DuckyCommand :=
  { raw_line := "STRING hi", lineno := 0, skip_delay := false,
    own_default_delay := 7, hasScript := true, pyfunc := .typewrite "hi" }

/-- State for the C6 witness: script default delay 99, one command. -/
def c6stA : PyState :=
  { heap := [c6own], default_delay := 99, scriptRefs := [], selfCmds := .sameAsScript }

/-- State for the C6 witness, scripted variant. -/
def c6stB : PyState :=
  { heap := [c6script], default_delay := 99, scriptRefs := [0], selfCmds := .frozen [0] }

/-- Witness for C6: the standalone command sleeps its own stored delay 7
even though the state's delay is 99; the scripted command sleeps the
script's current delay 99 even though its own stored delay is 7. -/
theorem c6_witness :
    ([Event.defaultSleep 7, Event.typed "hi"] : List Event).head? =
      some (.defaultSleep 7) ∧
    ([Event.defaultSleep 99, Event.typed "hi"] : List Event).head? =
      some (.defaultSleep 99) :=
  ⟨c6_default_delay_binding 1 c6stA c6stA 0 c6own
      [Event.defaultSleep 7, Event.typed "hi"] rfl rfl rfl,
    c6_default_delay_binding 1 c6stB c6stB 0 c6script
      [Event.defaultSleep 99, Event.typed "hi"] rfl rfl rfl⟩

end Duckpy
